import Mathlib

/-!
Verification of a minimal line-numbered BASIC ahead-of-time compiler.

The development shallowly embeds the compiler pipeline:
* a PEG-style recursive-descent parser for the grammar
  (`program ::= {line}+`, lines carrying an optional statement);
* the line-collation pass (`walk_Program`): a dict keyed by the numeric
  value of the line-number text, with insert/overwrite and pop semantics,
  then iteration over the sorted keys;
* statement lowering (`add_isn_to_program`) into a list of backend
  operations (comment pseudo-ops, an imported-function declaration for
  printf, assignments of variadic printf calls, a final return);
* the build driver (`compile`): object-file naming, the link step with
  its returncode check, and the unguarded removal of the object file.

Machine integers do not overflow in the modelled fragment (line numbers
are Python arbitrary-precision ints), so `Nat` is used directly.
-/

/-! ### Parse-tree node types (tatsu model layer) -/

/-- Node for `expression = number:number | string:string`. -/
inductive ExprNode where
  | num (number : String)
  | str (value : String)
  deriving DecidableEq, Repr

/-- Node for `label_expression = label:[label] expression:expression`.
The `label` field stores the quoted string's `value` text, `none` when
the optional label is absent. -/
structure LabelExprNode where
  label : Option String
  expression : ExprNode
  deriving DecidableEq, Repr

/-- Node for `statement = comment_statement | print_statement`. -/
inductive StmtNode where
  | comment (text : String)
  | print (expression_list : List LabelExprNode)
  deriving DecidableEq, Repr

/-- Node for `line = line_number statement? `; a line with no statement
(second grammar alternative) has `statement = none`. -/
structure LineNode where
  line_number : String
  statement : Option StmtNode
  deriving DecidableEq, Repr

/-! ### Recursive-descent embedding of the PEG grammar

Whitespace (the parser generator's default skip set, Python `\s`) is
skipped before token literals and before the `number` / `string` rule
patterns; the inline patterns of `comment_statement` (`/ /` and
`/[^\n]*/`) match at the current position. -/

def pyIsSpace (c : Char) : Bool :=
  c = ' ' || c = '\t' || c = '\n' || c = '\r' || c = '\x0b' || c = '\x0c'

def skipws (s : List Char) : List Char := s.dropWhile pyIsSpace

/-- Match a literal token after whitespace skipping. -/
def matchTok (tok : List Char) (s : List Char) : Option (List Char) :=
  let s1 := skipws s
  if tok.isPrefixOf s1 then some (s1.drop tok.length) else none

/-- `number = /\d+/`: one or more digits. -/
def matchNumber (s : List Char) : Option (String × List Char) :=
  let s1 := skipws s
  let ds := s1.takeWhile Char.isDigit
  if ds.isEmpty then none else some (⟨ds⟩, s1.drop ds.length)

/-- `string = '\x22' value:/[^\x22]*/ '\x22'`; returns the `value` text. -/
def matchStringLit (s : List Char) : Option (String × List Char) :=
  match matchTok ['"'] s with
  | none => none
  | some r =>
    let v := r.takeWhile (fun c => c ≠ '"')
    match r.drop v.length with
    | '"' :: rest => some (⟨v⟩, rest)
    | _ => none

/-- `expression = number:number | string:string` (ordered choice). -/
def parseExpressionNode (s : List Char) : Option (ExprNode × List Char) :=
  match matchNumber s with
  | some (n, r) => some (.num n, r)
  | none =>
    match matchStringLit s with
    | some (v, r) => some (.str v, r)
    | none => none

/-- `label_expression = label:[label] expression:expression`; PEG optional:
once the label matches, the rule commits to it. -/
def parseLabelExpr (s : List Char) : Option (LabelExprNode × List Char) :=
  match matchStringLit s with
  | some (l, r) =>
    match parseExpressionNode r with
    | some (e, r1) => some (⟨some l, e⟩, r1)
    | none => none
  | none =>
    match parseExpressionNode s with
    | some (e, r1) => some (⟨none, e⟩, r1)
    | none => none

/-- Tail of `expression_list = ",".{label_expression}+`: repeatedly match
a comma then a `label_expression`, backtracking the comma when the
element fails.  Fuel bounds the iteration (each step consumes the comma). -/
def parseExprListAux : Nat → List Char → List LabelExprNode → (List LabelExprNode × List Char)
  | 0, s, acc => (acc.reverse, s)
  | n + 1, s, acc =>
    match matchTok [','] s with
    | none => (acc.reverse, s)
    | some r =>
      match parseLabelExpr r with
      | none => (acc.reverse, s)
      | some (le, r1) => parseExprListAux n r1 (le :: acc)

def parseExprList (s : List Char) : Option (List LabelExprNode × List Char) :=
  match parseLabelExpr s with
  | none => none
  | some (le, r) =>
    let p := parseExprListAux r.length r [le]
    some p

/-- `comment_statement = "REM" / / comment:/[^\n]*/`. -/
def parseCommentStmt (s : List Char) : Option (StmtNode × List Char) :=
  match matchTok ['R', 'E', 'M'] s with
  | none => none
  | some r =>
    match r with
    | ' ' :: rest =>
      let text := rest.takeWhile (fun c => c ≠ '\n')
      some (.comment ⟨text⟩, rest.drop text.length)
    | _ => none

/-- `print_statement = "PRINT" expression_list:expression_list`. -/
def parsePrintStmt (s : List Char) : Option (StmtNode × List Char) :=
  match matchTok ['P', 'R', 'I', 'N', 'T'] s with
  | none => none
  | some r =>
    match parseExprList r with
    | some (es, r1) => some (.print es, r1)
    | none => none

/-- `statement = comment_statement | print_statement` (ordered choice). -/
def parseStatementNode (s : List Char) : Option (StmtNode × List Char) :=
  match parseCommentStmt s with
  | some x => some x
  | none => parsePrintStmt s

/-- `line = line_number statement ({}) | line_number ({})`: the first
alternative is tried in full; on statement failure the parse backtracks
to the number-only alternative. -/
def parseLine (s : List Char) : Option (LineNode × List Char) :=
  match matchNumber s with
  | none => none
  | some (n, r) =>
    match parseStatementNode r with
    | some (st, r1) => some (⟨n, some st⟩, r1)
    | none => some (⟨n, none⟩, r)

/-- Tail of `program = {line}+` (fuel-bounded: every line consumes at
least its digit). -/
def parseProgramAux : Nat → List Char → List LineNode → (List LineNode × List Char)
  | 0, s, acc => (acc.reverse, s)
  | n + 1, s, acc =>
    match parseLine s with
    | none => (acc.reverse, s)
    | some (l, r) => parseProgramAux n r (l :: acc)

/-- `program::Program = {line}+`: at least one line must parse, otherwise
the parse fails (`FailedParse`). -/
def parseProgram (text : String) : Option (List LineNode) :=
  match parseLine text.data with
  | none => none
  | some (l, r) => some (parseProgramAux r.length r (l :: [])).1

/-! ### AST model used by collation and lowering -/

/-- `NumberExpression(label, number)`: `label` is the label node's quoted
string value (or `none`), `number` the digit text of the literal. -/
structure NumberExpression where
  label : Option String
  number : String
  deriving DecidableEq, Repr

/-- `NumberExpression.get_str_for_print`. -/
def NumberExpression.get_str_for_print (e : NumberExpression) : String :=
  match e.label with
  | none => e.number
  | some l => l ++ e.number

/-- The closed statement variants `CommentStatement` / `PrintStatement`
(a `PrintStatement` holds the `NumberExpression`s built in its
constructor). -/
inductive Statement where
  | comment (text : String)
  | print (expressions : List NumberExpression)
  deriving DecidableEq, Repr

/-- A parsed line as seen by `walk_Program`: the raw digit text of the
line number, and the statement when the node has one (accessing the
missing attribute raises `AttributeError`, modelled by `none`). -/
structure Line where
  line_number : String
  statement : Option Statement
  deriving DecidableEq, Repr

/-- Python `int()` on the digit text matched by `/\d+/`. -/
def pyInt (s : String) : Nat :=
  s.data.foldl (fun n c => n * 10 + (c.toNat - '0'.toNat)) 0

/-! ### The collation dict (`statements` in `walk_Program`)

Python dicts preserve insertion order; assignment overwrites in place,
`pop` with a default never raises. -/

def dictSet (d : List (Nat × Statement)) (k : Nat) (v : Statement) : List (Nat × Statement) :=
  if d.any (fun p => p.1 == k) then
    d.map (fun p => if p.1 == k then (k, v) else p)
  else d ++ [(k, v)]

def dictPop (d : List (Nat × Statement)) (k : Nat) : List (Nat × Statement) :=
  d.filter (fun p => p.1 != k)

def dictLookup (d : List (Nat × Statement)) (k : Nat) : Option Statement :=
  (d.find? (fun p => p.1 == k)).map (fun p => p.2)

/-- One iteration of the collation loop of `walk_Program`:
`statements[int(line_num)] = line.statement` when the line carries a
statement, `statements.pop(int(line_num), ...)` when it carries none. -/
def collateStep (statements : List (Nat × Statement)) (line : Line) : List (Nat × Statement) :=
  match line.statement with
  | some st => dictSet statements (pyInt line.line_number) st
  | none => dictPop statements (pyInt line.line_number)

/-- The collation loop over the parsed lines in source order. -/
def collate (lines : List Line) : List (Nat × Statement) :=
  lines.foldl collateStep []

/-- `statements.keys()` in insertion order. -/
def dictKeys (d : List (Nat × Statement)) : List Nat :=
  d.map (fun p => p.1)

/-- `sorted(statements.keys())`. -/
def sortedKeys (d : List (Nat × Statement)) : List Nat :=
  List.insertionSort (fun a b => a ≤ b) (dictKeys d)

/-- The emission loop `for k in sorted(statements.keys()):
basic_program.add_statement(statements[k], k)`, as the list of
(line number, statement) pairs in emission order. -/
def orderedStatements (lines : List Line) : List (Nat × Statement) :=
  (sortedKeys (collate lines)).filterMap
    (fun k => (dictLookup (collate lines) k).map (fun s => (k, s)))

def orderedKeys (lines : List Line) : List Nat :=
  (orderedStatements lines).map (fun p => p.1)

/-! ### Backend operations and statement lowering -/

/-- The backend operations performed while lowering: a comment pseudo-op
on the main block, a `new_function(IMPORTED, ...)` declaration, an
assignment of a call's result to a named local (the call's string
arguments listed in order), and the final return terminator. -/
inductive Op where
  | addComment (text : String)
  | newImportedFunction (name : String)
  | addAssignment (localName : String) (callArgs : List String)
  | endWithReturn (val : Nat)
  deriving DecidableEq, Repr

/-- `CommentStatement.add_isn_to_program`. -/
def CommentStatement.add_isn_to_program (comment : String) : List Op :=
  [Op.addComment comment]

/-- `PrintStatement.add_isn_to_program`: the printf import is declared
unconditionally; the call and its assignment are emitted only when the
expression list is nonempty, with format
`b" ".join([b"%s"] * len(self.expressions)) + b"\n"` followed by the
compile-time rendered texts. -/
def PrintStatement.add_isn_to_program (expressions : List NumberExpression) (line_number : Nat) : List Op :=
  [Op.newImportedFunction "printf"] ++
    (if expressions.length > 0 then
      [Op.addAssignment ("printf.line." ++ toString line_number)
        ((String.intercalate " " (List.replicate expressions.length "%s") ++ "\n") ::
          expressions.map NumberExpression.get_str_for_print)]
    else [])

/-- Dynamic dispatch `statement.add_isn_to_program(self, line_number)`. -/
def Statement.add_isn_to_program : Statement → Nat → List Op
  | .comment c, _ => CommentStatement.add_isn_to_program c
  | .print es, ln => PrintStatement.add_isn_to_program es ln

/-- `MyNodeWalker.walk_Program`: collate, then lower the statements in
ascending key order into one operation sequence. -/
def walk_Program (lines : List Line) : List Op :=
  ((orderedStatements lines).map (fun p => Statement.add_isn_to_program p.2 p.1)).flatten

/-- The main block after `BasicProgramCompiler.compile` appends
`end_with_return(ctx.zero(int_type))`. -/
def compiledOps (lines : List Line) : List Op :=
  walk_Program lines ++ [Op.endWithReturn 0]

/-! ### Running the generated main routine -/

/-- printf formatting restricted to the `%s` directive (the only one the
compiler emits): each `%s` consumes the next string argument, every
other character is copied. -/
def renderPrintf : List Char → List String → String
  | [], _ => ""
  | '%' :: 's' :: rest, a :: args => a ++ renderPrintf rest args
  | '%' :: 's' :: rest, [] => "%s" ++ renderPrintf rest []
  | c :: rest, args => c.toString ++ renderPrintf rest args

/-- The stdout text an operation produces when executed. -/
def Op.output : Op → String
  | .addAssignment _ args =>
    match args with
    | fmt :: rest => renderPrintf fmt.data rest
    | [] => ""
  | _ => ""

def Op.isReturn : Op → Bool
  | .endWithReturn _ => true
  | _ => false

/-- Stdout of the compiled main routine: the output of every operation
up to the first return terminator. -/
def runMainOutput (ops : List Op) : String :=
  String.join ((ops.takeWhile (fun op => ! op.isReturn)).map Op.output)

/-- Exit status of the compiled main routine: the value of the first
return terminator, if any. -/
def runMainExit (ops : List Op) : Option Nat :=
  (ops.find? Op.isReturn).bind (fun op =>
    match op with
    | .endWithReturn v => some v
    | _ => none)

/-! ### Build driver (`BasicProgramCompiler.compile` and `main`) -/

/-- CPython `posixpath.splitext(p)[0]`: split at the last dot of the
final path component unless that component's leading characters up to
the dot are all dots. -/
def rfindIdxAux (c : Char) : List Char → Nat → Option Nat
  | [], _ => none
  | x :: xs, i =>
    match rfindIdxAux c xs (i + 1) with
    | some j => some j
    | none => if x == c then some i else none

def rfindIdx (c : Char) (cs : List Char) : Option Nat := rfindIdxAux c cs 0

def splitextBase (p : String) : String :=
  let cs := p.data
  match rfindIdx '.' cs with
  | none => p
  | some dotIndex =>
    let filenameIndex :=
      match rfindIdx '/' cs with
      | none => 0
      | some sepIndex => sepIndex + 1
    if ((cs.drop filenameIndex).take (dotIndex - filenameIndex)).any (fun ch => ch != '.') then
      ⟨cs.take dotIndex⟩
    else p

/-- `full_object_filename = "\x7b\x7d.o".format(namebase)`. -/
def full_object_filename (namebase : String) : String := namebase ++ ".o"

/-- `src_namebase = os.path.splitext(args.srcfile)[0]` in `main`. -/
def src_namebase (srcfile : String) : String := splitextBase srcfile

/-- The path the intermediate object file of a run is written to:
`main` passes `src_namebase` to `compile`, which appends `.o`.  The
output-file argument does not enter the computation. -/
def objectFileOfRun (srcfile outfile : String) : String :=
  full_object_filename (src_namebase srcfile)

/-- Outcome of the external effects of one `compile` call: the linker's
exit status and captured stderr, and whether `os.remove` would succeed. -/
structure LinkWorld where
  linkExit : Nat
  linkStderr : String
  removeOk : Bool
  deriving DecidableEq, Repr

/-- How a `compile` call ends: normal return, `CalledProcessError` from
`proc.check_returncode()` (carrying the returncode and captured stderr),
or an uncaught `OSError` from `os.remove`. -/
inductive RunOutcome where
  | ok
  | calledProcessError (returncode : Nat) (stderr : String)
  | osError
  deriving DecidableEq, Repr

structure CompileTrace where
  outcome : RunOutcome
  removeAttempted : Bool
  deriving DecidableEq, Repr

/-- `BasicProgramCompiler.compile` after the object file is written:
run the linker, `check_returncode()` (raising on nonzero status and
skipping the removal), then `os.remove(full_object_filename)` with no
exception handler. -/
def compileDriver (w : LinkWorld) : CompileTrace :=
  if w.linkExit = 0 then
    if w.removeOk then ⟨.ok, true⟩ else ⟨.osError, true⟩
  else ⟨.calledProcessError w.linkExit w.linkStderr, false⟩

/-- Number of `new_function(IMPORTED, ..., b"printf", ...)` declarations
in an operation sequence. -/
def printfDeclCount (ops : List Op) : Nat :=
  ops.countP (fun op =>
    match op with
    | .newImportedFunction n => n == "printf"
    | _ => false)

/-- The printf calls of an operation sequence: (local name, argument
list) of each emitted assignment. -/
def callsOf (ops : List Op) : List (String × List String) :=
  ops.filterMap (fun op =>
    match op with
    | .addAssignment n args => some (n, args)
    | _ => none)

def Statement.isPrintStmt : Statement → Bool
  | .print _ => true
  | _ => false

/-! ### Lemmas about the collation dict -/

theorem find?_map_set (d : List (Nat × Statement)) (k : Nat) (v : Statement) :
    List.find? (fun p => p.1 == k) (d.map (fun p => if p.1 == k then (k, v) else p)) =
      if d.any (fun p => p.1 == k) then some (k, v) else none := by
  induction d with
  | nil => rfl
  | cons a d ih =>
    by_cases h : a.1 = k
    · have hb : (a.1 == k) = true := beq_iff_eq.mpr h
      simp only [List.map_cons, List.find?_cons, List.any_cons, hb, if_true,
        beq_self_eq_true, Bool.true_or]
    · have hb : (a.1 == k) = false := beq_eq_false_iff_ne.mpr h
      simp only [List.map_cons, List.find?_cons, List.any_cons, hb,
        Bool.false_eq_true, if_false, Bool.false_or, ih]

theorem find?_map_set_other {k1 k : Nat} (h : k1 ≠ k) (d : List (Nat × Statement)) (v : Statement) :
    List.find? (fun p => p.1 == k1) (d.map (fun p => if p.1 == k then (k, v) else p)) =
      List.find? (fun p => p.1 == k1) d := by
  induction d with
  | nil => rfl
  | cons a d ih =>
    by_cases ha : a.1 = k
    · have hb : (a.1 == k) = true := beq_iff_eq.mpr ha
      have h1 : ((k : Nat) == k1) = false := beq_eq_false_iff_ne.mpr (Ne.symm h)
      have h2 : (a.1 == k1) = false := beq_eq_false_iff_ne.mpr (by rw [ha]; exact Ne.symm h)
      simp only [List.map_cons, hb, if_true, List.find?_cons, h1, h2, ih]
    · have hb : (a.1 == k) = false := beq_eq_false_iff_ne.mpr ha
      by_cases hc : a.1 = k1
      · have hb1 : (a.1 == k1) = true := beq_iff_eq.mpr hc
        simp only [List.map_cons, hb, Bool.false_eq_true, if_false, List.find?_cons, hb1]
      · have hb1 : (a.1 == k1) = false := beq_eq_false_iff_ne.mpr hc
        simp only [List.map_cons, hb, Bool.false_eq_true, if_false, List.find?_cons, hb1, ih]

theorem dictLookup_set_self (d : List (Nat × Statement)) (k : Nat) (v : Statement) :
    dictLookup (dictSet d k v) k = some v := by
  unfold dictLookup dictSet
  by_cases h : d.any (fun p => p.1 == k)
  · rw [if_pos h, find?_map_set, if_pos h]
    rfl
  · rw [if_neg h, List.find?_append]
    have h0 : d.find? (fun p => p.1 == k) = none := by
      refine List.find?_eq_none.mpr ?_
      intro x hx
      have := (List.any_eq_false.mp (Bool.eq_false_iff.mpr h)) x hx
      simpa using this
    simp [h0]

theorem dictLookup_set_other {k1 k : Nat} (h : k1 ≠ k) (d : List (Nat × Statement)) (v : Statement) :
    dictLookup (dictSet d k v) k1 = dictLookup d k1 := by
  unfold dictLookup dictSet
  by_cases hany : d.any (fun p => p.1 == k)
  · rw [if_pos hany, find?_map_set_other h]
  · rw [if_neg hany, List.find?_append]
    have h1 : (((k, v) : Nat × Statement).1 == k1) = false := beq_eq_false_iff_ne.mpr (Ne.symm h)
    cases hf : d.find? (fun p => p.1 == k1) with
    | none => simp [h1]
    | some p => simp

theorem dictLookup_pop_self (d : List (Nat × Statement)) (k : Nat) :
    dictLookup (dictPop d k) k = none := by
  unfold dictLookup dictPop
  have h0 : (d.filter (fun p => p.1 != k)).find? (fun p => p.1 == k) = none := by
    refine List.find?_eq_none.mpr ?_
    intro x hx
    have := (List.mem_filter.mp hx).2
    simpa using this
  simp [h0]

theorem dictLookup_pop_other {k1 k : Nat} (h : k1 ≠ k) (d : List (Nat × Statement)) :
    dictLookup (dictPop d k) k1 = dictLookup d k1 := by
  unfold dictLookup dictPop
  induction d with
  | nil => rfl
  | cons a d ih =>
    by_cases ha : a.1 = k
    · have hb : (a.1 != k) = false := by simp [ha]
      have h2 : (a.1 == k1) = false := beq_eq_false_iff_ne.mpr (by rw [ha]; exact Ne.symm h)
      simp only [List.filter_cons, hb, Bool.false_eq_true, if_false, List.find?_cons, h2, ih]
    · have hb : (a.1 != k) = true := by simp [ha]
      by_cases hc : a.1 = k1
      · have hb1 : (a.1 == k1) = true := beq_iff_eq.mpr hc
        simp only [List.filter_cons, hb, if_true, List.find?_cons, hb1]
      · have hb1 : (a.1 == k1) = false := beq_eq_false_iff_ne.mpr hc
        simp only [List.filter_cons, hb, if_true, List.find?_cons, hb1, ih]

theorem dictPop_of_lookup_none {d : List (Nat × Statement)} {k : Nat}
    (h : dictLookup d k = none) : dictPop d k = d := by
  unfold dictPop
  refine List.filter_eq_self.mpr ?_
  intro p hp
  have h0 : d.find? (fun q => q.1 == k) = none := by
    unfold dictLookup at h
    exact Option.map_eq_none.mp h
  have := List.find?_eq_none.mp h0 p hp
  simpa using this

/-! ### Key uniqueness and permutation invariance of the dict -/

theorem dictKeys_set_of_mem {d : List (Nat × Statement)} {k : Nat} (v : Statement)
    (h : d.any (fun p => p.1 == k) = true) : dictKeys (dictSet d k v) = dictKeys d := by
  unfold dictKeys dictSet
  rw [if_pos h, List.map_map]
  refine List.map_congr_left ?_
  intro p _
  by_cases hp : p.1 = k
  · have hb : (p.1 == k) = true := beq_iff_eq.mpr hp
    simp [Function.comp, hb, hp]
  · have hb : (p.1 == k) = false := beq_eq_false_iff_ne.mpr hp
    simp [Function.comp, hb]

theorem dictKeys_set_of_not_mem {d : List (Nat × Statement)} {k : Nat} (v : Statement)
    (h : d.any (fun p => p.1 == k) = false) : dictKeys (dictSet d k v) = dictKeys d ++ [k] := by
  unfold dictKeys dictSet
  rw [if_neg (by simp [h]), List.map_append]
  rfl

theorem not_mem_dictKeys_of_any_false {d : List (Nat × Statement)} {k : Nat}
    (h : d.any (fun p => p.1 == k) = false) : k ∉ dictKeys d := by
  intro hk
  obtain ⟨p, hp, hpk⟩ := List.mem_map.mp hk
  have := List.any_eq_false.mp h p hp
  exact this (beq_iff_eq.mpr hpk)

theorem nodup_dictKeys_set {d : List (Nat × Statement)} {k : Nat} (v : Statement)
    (h : (dictKeys d).Nodup) : (dictKeys (dictSet d k v)).Nodup := by
  cases hany : d.any (fun p => p.1 == k) with
  | true => rw [dictKeys_set_of_mem v hany]; exact h
  | false =>
    rw [dictKeys_set_of_not_mem v hany]
    refine ((List.perm_append_singleton k (dictKeys d)).nodup_iff).mpr ?_
    exact List.nodup_cons.mpr ⟨not_mem_dictKeys_of_any_false hany, h⟩

theorem nodup_dictKeys_pop {d : List (Nat × Statement)} {k : Nat}
    (h : (dictKeys d).Nodup) : (dictKeys (dictPop d k)).Nodup := by
  have hs : (dictPop d k).Sublist d := List.filter_sublist d
  have hm : (List.map (fun p => p.1) (dictPop d k)).Sublist (List.map (fun p => p.1) d) :=
    hs.map (fun p => p.1)
  exact List.Nodup.sublist hm h

theorem nodup_dictKeys_collateStep {d : List (Nat × Statement)} (line : Line)
    (h : (dictKeys d).Nodup) : (dictKeys (collateStep d line)).Nodup := by
  unfold collateStep
  cases line.statement with
  | some st => exact nodup_dictKeys_set st h
  | none => exact nodup_dictKeys_pop h

theorem nodup_dictKeys_foldl (lines : List Line) :
    ∀ d : List (Nat × Statement), (dictKeys d).Nodup →
      (dictKeys (lines.foldl collateStep d)).Nodup := by
  induction lines with
  | nil => intro d h; exact h
  | cons l lines ih =>
    intro d h
    exact ih (collateStep d l) (nodup_dictKeys_collateStep l h)

theorem nodup_dictKeys_collate (lines : List Line) : (dictKeys (collate lines)).Nodup :=
  nodup_dictKeys_foldl lines [] (by simp [dictKeys])

theorem lookup_isSome_of_mem_dictKeys {d : List (Nat × Statement)} {k : Nat}
    (h : k ∈ dictKeys d) : ∃ v, dictLookup d k = some v := by
  induction d with
  | nil => simp [dictKeys] at h
  | cons a d ih =>
    by_cases ha : a.1 = k
    · have hb : (a.1 == k) = true := beq_iff_eq.mpr ha
      refine ⟨a.2, ?_⟩
      unfold dictLookup
      simp only [List.find?_cons, hb]
      rfl
    · have hb : (a.1 == k) = false := beq_eq_false_iff_ne.mpr ha
      have hk : k ∈ dictKeys d := by
        rcases List.mem_cons.mp h with h1 | h1
        · exact absurd h1.symm ha
        · exact h1
      obtain ⟨v, hv⟩ := ih hk
      refine ⟨v, ?_⟩
      unfold dictLookup at hv ⊢
      simpa only [List.find?_cons, hb] using hv

theorem dictLookup_none_iff {d : List (Nat × Statement)} {k : Nat} :
    dictLookup d k = none ↔ k ∉ dictKeys d := by
  unfold dictLookup dictKeys
  rw [show ∀ o : Option (Nat × Statement),
      (Option.map (fun p => p.2) o = none ↔ o = none) from fun o => by cases o <;> simp,
    List.find?_eq_none]
  constructor
  · intro h hk
    obtain ⟨p, hp, hpk⟩ := List.mem_map.mp hk
    exact h p hp (beq_iff_eq.mpr hpk)
  · intro h p hp hpk
    exact h (List.mem_map.mpr ⟨p, hp, beq_iff_eq.mp hpk⟩)

theorem dictLookup_some_iff_mem {d : List (Nat × Statement)} (hn : (dictKeys d).Nodup)
    {k : Nat} {v : Statement} : dictLookup d k = some v ↔ (k, v) ∈ d := by
  induction d with
  | nil => simp [dictLookup]
  | cons a d ih =>
    have hn1 : a.1 ∉ dictKeys d := (List.nodup_cons.mp hn).1
    have hn2 : (dictKeys d).Nodup := (List.nodup_cons.mp hn).2
    by_cases ha : a.1 = k
    · have hb : (a.1 == k) = true := beq_iff_eq.mpr ha
      unfold dictLookup
      simp only [List.find?_cons, hb, List.mem_cons]
      constructor
      · intro h
        left
        have h2 : a.2 = v := by simpa using h
        exact Prod.ext_iff.mpr ⟨ha.symm, h2.symm⟩
      · intro h
        rcases h with h | h
        · rw [← h]
          rfl
        · exfalso
          have hk : k ∈ dictKeys d := List.mem_map.mpr ⟨(k, v), h, rfl⟩
          rw [ha] at hn1
          exact hn1 hk
    · have hb : (a.1 == k) = false := beq_eq_false_iff_ne.mpr ha
      unfold dictLookup at ih ⊢
      simp only [List.find?_cons, hb, List.mem_cons]
      rw [ih hn2]
      constructor
      · intro h; right; exact h
      · intro h
        rcases h with h | h
        · exfalso; exact ha (congrArg Prod.fst h).symm
        · exact h

theorem dictLookup_perm {d1 d2 : List (Nat × Statement)} (hp : d1.Perm d2)
    (hn : (dictKeys d1).Nodup) (k : Nat) : dictLookup d1 k = dictLookup d2 k := by
  have hkp : (dictKeys d1).Perm (dictKeys d2) := by
    unfold dictKeys
    exact hp.map (fun p => p.1)
  have hn2 : (dictKeys d2).Nodup := hkp.nodup_iff.mp hn
  cases h : dictLookup d1 k with
  | some v =>
    have hm : (k, v) ∈ d1 := (dictLookup_some_iff_mem hn).mp h
    exact ((dictLookup_some_iff_mem hn2).mpr (hp.mem_iff.mp hm)).symm
  | none =>
    have hm : k ∉ dictKeys d1 := dictLookup_none_iff.mp h
    exact (dictLookup_none_iff.mpr (fun hk => hm (hkp.mem_iff.mpr hk))).symm

/-! ### Sorted emission order -/

theorem sortedKeys_sorted (d : List (Nat × Statement)) :
    List.Sorted (fun a b => a ≤ b) (sortedKeys d) :=
  List.sorted_insertionSort (fun a b => a ≤ b) (dictKeys d)

theorem sortedKeys_perm (d : List (Nat × Statement)) :
    (sortedKeys d).Perm (dictKeys d) :=
  List.perm_insertionSort (fun a b => a ≤ b) (dictKeys d)

theorem filterMap_lookup_keys (d : List (Nat × Statement)) :
    ∀ ks : List Nat, (∀ k ∈ ks, ∃ v, dictLookup d k = some v) →
      (ks.filterMap (fun k => (dictLookup d k).map (fun s => (k, s)))).map (fun p => p.1) = ks := by
  intro ks
  induction ks with
  | nil => intro _; rfl
  | cons k ks ih =>
    intro h
    obtain ⟨v, hv⟩ := h k (List.mem_cons_self k ks)
    have htail := ih (fun x hx => h x (List.mem_cons_of_mem k hx))
    simp only [List.filterMap_cons, hv, Option.map_some]
    simpa using htail

theorem orderedKeys_eq_sortedKeys (lines : List Line) :
    orderedKeys lines = sortedKeys (collate lines) := by
  unfold orderedKeys orderedStatements
  apply filterMap_lookup_keys
  intro k hk
  apply lookup_isSome_of_mem_dictKeys
  exact (sortedKeys_perm (collate lines)).mem_iff.mp hk

theorem orderedStatements_perm_invariant {lines1 lines2 : List Line}
    (hp : (collate lines1).Perm (collate lines2)) :
    orderedStatements lines1 = orderedStatements lines2 := by
  have hn1 := nodup_dictKeys_collate lines1
  have hn2 := nodup_dictKeys_collate lines2
  have hkey : sortedKeys (collate lines1) = sortedKeys (collate lines2) := by
    have hkp : (dictKeys (collate lines1)).Perm (dictKeys (collate lines2)) := by
      unfold dictKeys
      exact hp.map (fun p => p.1)
    refine List.eq_of_perm_of_sorted ?_ (sortedKeys_sorted _) (sortedKeys_sorted _)
    exact ((sortedKeys_perm _).trans hkp).trans (sortedKeys_perm _).symm
  have hfun : (fun k => (dictLookup (collate lines1) k).map (fun s => (k, s))) =
      (fun k => (dictLookup (collate lines2) k).map (fun s => (k, s))) := by
    funext k
    rw [dictLookup_perm hp hn1 k]
  unfold orderedStatements
  rw [hkey, hfun]

/-! ### Lowering lemmas -/

theorem printfDeclCount_append (x y : List Op) :
    printfDeclCount (x ++ y) = printfDeclCount x + printfDeclCount y :=
  List.countP_append _ x y

theorem printfDeclCount_statement (s : Statement) (ln : Nat) :
    printfDeclCount (Statement.add_isn_to_program s ln) =
      if s.isPrintStmt then 1 else 0 := by
  cases s with
  | comment c => rfl
  | print es =>
    cases es with
    | nil => rfl
    | cons e es =>
      simp [Statement.add_isn_to_program, PrintStatement.add_isn_to_program,
        printfDeclCount, Statement.isPrintStmt, List.countP_cons, List.countP_append]

theorem printfDeclCount_lowered (l : List (Nat × Statement)) :
    printfDeclCount ((l.map (fun p => Statement.add_isn_to_program p.2 p.1)).flatten) =
      l.countP (fun p => p.2.isPrintStmt) := by
  induction l with
  | nil => rfl
  | cons a l ih =>
    rw [List.map_cons, List.flatten_cons, printfDeclCount_append, ih,
      printfDeclCount_statement, List.countP_cons]
    cases h : a.2.isPrintStmt with
    | true => simp [h, Nat.add_comm]
    | false => simp [h]

/-! ### Claim theorems -/

/-- C1: line collation processes lines in source order; a line carrying a
statement inserts or overwrites the mapping entry for its number, a line
carrying none removes any existing entry for that number without touching
other entries, and removing a never-defined number is a no-op, not an
error. -/
theorem C1_collation_step (d : List (Nat × Statement)) (t : String) (s : Option Statement)
    (k : Nat) :
    (∀ st : Statement, s = some st →
      dictLookup (collateStep d ⟨t, s⟩) (pyInt t) = some st) ∧
    (s = none → dictLookup (collateStep d ⟨t, s⟩) (pyInt t) = none) ∧
    (k ≠ pyInt t → dictLookup (collateStep d ⟨t, s⟩) k = dictLookup d k) ∧
    (s = none → dictLookup d (pyInt t) = none → collateStep d ⟨t, s⟩ = d) := by
  refine ⟨?_, ?_, ?_, ?_⟩
  · intro st hst
    subst hst
    exact dictLookup_set_self d (pyInt t) st
  · intro hs
    subst hs
    exact dictLookup_pop_self d (pyInt t)
  · intro hk
    cases s with
    | some st => exact dictLookup_set_other hk d st
    | none => exact dictLookup_pop_other hk d
  · intro hs hl
    subst hs
    exact dictPop_of_lookup_none hl

/-- Witness for C1 at concrete collation steps. -/
theorem C1_collation_step_witness :
    dictLookup (collateStep [] ⟨"7", some (Statement.comment "hi")⟩) (pyInt "7") =
      some (Statement.comment "hi") ∧
    dictLookup (collateStep [(7, Statement.comment "hi")] ⟨"7", none⟩) (pyInt "7") = none ∧
    dictLookup (collateStep [(3, Statement.comment "a")] ⟨"7", some (Statement.comment "b")⟩) 3 =
      dictLookup [(3, Statement.comment "a")] 3 ∧
    collateStep [(3, Statement.comment "a")] ⟨"9", none⟩ = [(3, Statement.comment "a")] :=
  ⟨(C1_collation_step [] "7" (some (Statement.comment "hi")) 0).1 (Statement.comment "hi") rfl,
   (C1_collation_step [(7, Statement.comment "hi")] "7" none 0).2.1 rfl,
   (C1_collation_step [(3, Statement.comment "a")] "7"
      (some (Statement.comment "b")) 3).2.2.1 (by decide),
   (C1_collation_step [(3, Statement.comment "a")] "9" none 0).2.2.2 rfl (by decide)⟩

/-- C2: statements are lowered in ascending order of the surviving line
numbers after collation; the emission order is a permutation of the
surviving keys, is sorted ascending, and depends only on the collation
result, not on the order of lines in the source text. -/
theorem C2_lowering_order (lines : List Line) :
    List.Sorted (fun a b => a ≤ b) (orderedKeys lines) ∧
    (orderedKeys lines).Perm (dictKeys (collate lines)) ∧
    (∀ lines2 : List Line, (collate lines2).Perm (collate lines) →
      orderedStatements lines2 = orderedStatements lines) := by
  refine ⟨?_, ?_, ?_⟩
  · rw [orderedKeys_eq_sortedKeys]
    exact sortedKeys_sorted _
  · rw [orderedKeys_eq_sortedKeys]
    exact sortedKeys_perm _
  · intro lines2 hp
    exact orderedStatements_perm_invariant hp

/-- Witness for C2: two sources differing only in line order lower their
statements identically. -/
theorem C2_lowering_order_witness :
    orderedStatements
        [⟨"10", some (Statement.comment "a")⟩, ⟨"20", some (Statement.comment "b")⟩] =
      orderedStatements
        [⟨"20", some (Statement.comment "b")⟩, ⟨"10", some (Statement.comment "a")⟩] :=
  (C2_lowering_order
      [⟨"20", some (Statement.comment "b")⟩, ⟨"10", some (Statement.comment "a")⟩]).2.2
    [⟨"10", some (Statement.comment "a")⟩, ⟨"20", some (Statement.comment "b")⟩] (by decide)

/-- C3: lowering a Print statement emits no output call when its
expression list is empty, and otherwise exactly one variadic printf call
whose first argument is one "%s" placeholder per expression joined by
single spaces and terminated by a newline, followed by the rendered texts
in list order. -/
theorem C3_print_lowering (es : List NumberExpression) (ln : Nat) :
    callsOf (PrintStatement.add_isn_to_program es ln) =
      if es.isEmpty then []
      else [("printf.line." ++ toString ln,
        (String.intercalate " " (List.replicate es.length "%s") ++ "\n") ::
          es.map NumberExpression.get_str_for_print)] := by
  cases es with
  | nil => rfl
  | cons e es =>
    simp [callsOf, PrintStatement.add_isn_to_program, List.filterMap_cons]

/-- C4: a labeled numeric expression renders as the label text directly
followed by the number text with no separator; an unlabeled one renders
as the number text alone. -/
theorem C4_rendered_text (l n : String) :
    NumberExpression.get_str_for_print ⟨some l, n⟩ = l ++ n ∧
    NumberExpression.get_str_for_print ⟨none, n⟩ = n :=
  ⟨rfl, rfl⟩

/-- C5 counterexample: empty source text is not accepted — the grammar
`program ::= {line}+` requires at least one line, so the parse fails. -/
theorem C5_empty_source_counterexample : parseProgram "" = none := rfl

/-- C5 amended: empty source text is rejected with a parse error; a
program whose collation leaves no statements compiles to a main routine
holding only the success terminator, which exits with status 0 and
produces no output. -/
theorem C5_empty_source_rejected :
    parseProgram "" = none ∧
    ∀ lines : List Line, collate lines = [] →
      compiledOps lines = [Op.endWithReturn 0] ∧
      runMainOutput (compiledOps lines) = "" ∧
      runMainExit (compiledOps lines) = some 0 := by
  refine ⟨rfl, ?_⟩
  intro lines h
  have h1 : orderedStatements lines = [] := by
    unfold orderedStatements
    rw [h]
    rfl
  have h2 : compiledOps lines = [Op.endWithReturn 0] := by
    unfold compiledOps walk_Program
    rw [h1]
    rfl
  refine ⟨h2, ?_, ?_⟩
  · rw [h2]
    rfl
  · rw [h2]
    rfl

/-- Witness for C5 at a source whose only line is a deletion marker. -/
theorem C5_empty_source_rejected_witness :
    compiledOps [⟨"10", none⟩] = [Op.endWithReturn 0] ∧
    runMainOutput (compiledOps [⟨"10", none⟩]) = "" ∧
    runMainExit (compiledOps [⟨"10", none⟩]) = some 0 :=
  C5_empty_source_rejected.2 [⟨"10", none⟩] (by decide)

/-- C6 counterexample: the intermediate object path is not a function of
the output name — two runs with the same output name but different source
files write the object file at different paths. -/
theorem C6_object_path_counterexample :
    objectFileOfRun "a.bas" "a.out" ≠ objectFileOfRun "b.bas" "a.out" := by decide

/-- C6 amended: the intermediate object file is written at a fixed path
derived from the source file name (its extension replaced by ".o"),
independent of the output name. -/
theorem C6_object_path_from_srcfile (srcfile o1 o2 : String) :
    objectFileOfRun srcfile o1 = objectFileOfRun srcfile o2 ∧
    objectFileOfRun srcfile o1 = full_object_filename (src_namebase srcfile) ∧
    objectFileOfRun "prog.bas" "myexe" = "prog.o" :=
  ⟨rfl, rfl, by decide⟩

/-- C7 counterexample: when the link succeeds but deleting the object
file fails, the run does not succeed — the OSError escapes. -/
theorem C7_cleanup_failure_counterexample :
    (compileDriver ⟨0, "", false⟩).outcome = RunOutcome.osError ∧
    RunOutcome.osError ≠ RunOutcome.ok := by decide

/-- C7 amended: a failure to delete the intermediate object file after a
successful link is fatal — the removal error propagates uncaught and the
compilation run fails (no warning path exists). -/
theorem C7_cleanup_failure_fatal (w : LinkWorld) (h0 : w.linkExit = 0)
    (h1 : w.removeOk = false) : compileDriver w = ⟨RunOutcome.osError, true⟩ := by
  unfold compileDriver
  rw [if_pos h0]
  simp [h1]

/-- Witness for C7 at a concrete world. -/
theorem C7_cleanup_failure_fatal_witness :
    compileDriver ⟨0, "link ok", false⟩ = ⟨RunOutcome.osError, true⟩ :=
  C7_cleanup_failure_fatal ⟨0, "link ok", false⟩ rfl rfl

/-- C8: a nonzero linker exit status aborts the run with an error
carrying that exit status and the captured stderr, and the intermediate
object file removal is attempted exactly when the link succeeds. -/
theorem C8_link_failure_abort (w : LinkWorld) :
    (w.linkExit ≠ 0 →
      compileDriver w = ⟨RunOutcome.calledProcessError w.linkExit w.linkStderr, false⟩) ∧
    ((compileDriver w).removeAttempted = true ↔ w.linkExit = 0) := by
  constructor
  · intro h
    unfold compileDriver
    rw [if_neg h]
  · unfold compileDriver
    by_cases h : w.linkExit = 0
    · rw [if_pos h]
      cases hr : w.removeOk <;> simp [h, hr]
    · rw [if_neg h]
      simp [h]

/-- Witness for C8 at a failing link. -/
theorem C8_link_failure_abort_witness :
    compileDriver ⟨2, "ld: error", true⟩ =
      ⟨RunOutcome.calledProcessError 2 "ld: error", false⟩ :=
  (C8_link_failure_abort ⟨2, "ld: error", true⟩).1 (by decide)

/-- C9 counterexample: a program with two Print statements declares the
printf import twice in one compilation run, not once. -/
theorem C9_printf_decl_counterexample :
    printfDeclCount (walk_Program
        [⟨"10", some (Statement.print [⟨none, "1"⟩])⟩,
         ⟨"20", some (Statement.print [⟨none, "2"⟩])⟩]) = 2 ∧
    (2 : Nat) ≠ 1 := by decide

/-- C9 amended: the printf import is declared once per lowered Print
statement (also for Print statements with empty expression lists), so a
run declares it as many times as it lowers Print statements. -/
theorem C9_printf_decl_per_print (lines : List Line) :
    printfDeclCount (walk_Program lines) =
      (orderedStatements lines).countP (fun p => p.2.isPrintStmt) := by
  unfold walk_Program
  exact printfDeclCount_lowered (orderedStatements lines)

/-- C10: line numbers are collated by numeric value, not source text —
number texts with the same numeric value (such as leading-zero variants)
address the same mapping entry, and the final order is numeric, not
lexicographic on the digit strings. -/
theorem C10_numeric_collation :
    (∀ t1 t2 : String, pyInt t1 = pyInt t2 →
      ∀ (d : List (Nat × Statement)) (s : Option Statement),
        collateStep d ⟨t1, s⟩ = collateStep d ⟨t2, s⟩) ∧
    pyInt "007" = pyInt "7" ∧
    (("10" : String).data < ("9" : String).data) ∧
    orderedKeys [⟨"10", some (Statement.comment "a")⟩, ⟨"9", some (Statement.comment "b")⟩] =
      [9, 10] := by
  refine ⟨?_, by decide, by decide, by decide⟩
  intro t1 t2 h d s
  cases s with
  | some st => simp only [collateStep, h]
  | none => simp only [collateStep, h]

/-- Witness for C10: leading zeros address the same entry. -/
theorem C10_numeric_collation_witness :
    collateStep [] ⟨"007", some (Statement.comment "x")⟩ =
      collateStep [] ⟨"7", some (Statement.comment "x")⟩ :=
  C10_numeric_collation.1 "007" "7" (by decide) [] (some (Statement.comment "x"))
